import Mathlib

/-!
Verification of the write-operation normalization core of the papr repository
(src/utils.ts): `timestampUpdateFilter`, `timestampBulkWriteOperation` and
`cleanSetOnInsert`, plus the projection-to-shape derivation.

The JavaScript values flowing through these functions are modelled by the
inductive type `Papr.Val`; JavaScript objects are association lists in
insertion order (`Papr.Obj`), with object spread modelled by `setKey` /
`objSpread` (a spread replaces the value of an existing key in place and
appends fresh keys at the end, exactly as the ECMAScript object literal
semantics prescribe). Real JavaScript objects never carry a duplicate key;
the list representation tolerates duplicates, and all operations below use
first-match lookup, which agrees with JavaScript on duplicate-free lists.

Dates (`new Date()`) are modelled by `Val.vDate now` where `now : Nat` is the
clock reading taken during one normalization call; it is passed to the Lean
functions as an explicit argument.
-/

namespace Papr

/-- A JavaScript (BSON-ish) value: booleans, numbers, strings, dates, null,
arrays and plain objects. Objects are association lists in insertion order. -/
inductive Val where
  | vBool : Bool → Val
  | vInt : Int → Val
  | vStr : String → Val
  | vDate : Nat → Val
  | vNull : Val
  | vArr : List Val → Val
  | vDoc : List (String × Val) → Val

/-- A JavaScript object: an association list of fields in insertion order. -/
abbrev Obj := List (String × Val)

/-- First-match lookup of a key in an object. -/
def lookupKey : Obj → String → Option Val
  | [], _ => none
  | (k0, v) :: rest, k => if k0 = k then some v else lookupKey rest k

/-- Assigning one key during an object spread: if the key is present its value
is replaced in place, otherwise the pair is appended at the end. -/
def setKey : Obj → String → Val → Obj
  | [], k, v => [(k, v)]
  | (k0, v0) :: rest, k, v =>
      if k0 = k then (k, v) :: rest else (k0, v0) :: setKey rest k v

/-- Spreading the fields `ext` into the object `base`, left to right. -/
def objSpread (base : Obj) (ext : Obj) : Obj :=
  ext.foldl (fun acc kv => setKey acc kv.1 kv.2) base

/-- JavaScript truthiness of a value. -/
def truthy : Val → Bool
  | Val.vBool b => b
  | Val.vInt n => n != 0
  | Val.vStr s => s != ""
  | Val.vDate _ => true
  | Val.vNull => false
  | Val.vArr _ => true
  | Val.vDoc _ => true

/-- Property access `v[k]` as used by the normalizer: named properties exist
only on plain objects; on any other value (or through optional chaining on a
missing value) the access yields `undefined`, modelled as `none`. -/
def getProp : Val → String → Option Val
  | Val.vDoc d, k => lookupKey d k
  | _, _ => none

/-- The optional chain `v[k1]?.[k2]`. -/
def getProp2 (v : Val) (k1 k2 : String) : Option Val :=
  match getProp v k1 with
  | some w => getProp w k2
  | none => none

/-- Truthiness of a possibly-undefined value (`undefined` is falsy). -/
def jsTruthy : Option Val → Bool
  | some v => truthy v
  | none => false

/-- The member names of Object.prototype: the JavaScript `in` operator
consults the prototype chain, so these names test as present on every
ordinary object — including the empty-object fallback `{}` — whatever its
own keys are. -/
def objectProtoKeys : List String :=
  ["constructor", "hasOwnProperty", "isPrototypeOf", "propertyIsEnumerable",
   "toLocaleString", "toString", "valueOf", "__proto__",
   "__defineGetter__", "__defineSetter__", "__lookupGetter__", "__lookupSetter__"]

/-- Key membership test `k in (v or empty-object)`: an absent or falsy group
falls back to `{}`, where the `in` operator still finds the inherited
Object.prototype members; a document group contributes its own keys plus
those same inherited members. The driver types the operator groups as plain
documents, so the remaining cases (a truthy non-document group, where the
`in` operator would throw on a primitive or consult another prototype) are
never exercised by well-typed callers. -/
def jsHasKey : Option Val → String → Bool
  | some (Val.vDoc d), k => (lookupKey d k).isSome || objectProtoKeys.contains k
  | some v, k => if truthy v then false else objectProtoKeys.contains k
  | none, k => objectProtoKeys.contains k

/-- The own enumerable entries contributed by a value under object spread:
a document contributes its fields, a string its indexed characters, an array
its indexed elements, and every other value contributes nothing. -/
def spreadContrib : Val → Obj
  | Val.vDoc d => d
  | Val.vStr s => s.toList.enum.map fun ic => (toString ic.1, Val.vStr (String.singleton ic.2))
  | Val.vArr l => l.enum.map fun iv => (toString iv.1, iv.2)
  | _ => []

/-- Spread of a possibly-undefined value (`...undefined` contributes nothing). -/
def spreadOpt : Option Val → Obj
  | some v => spreadContrib v
  | none => []

/-- Whether a value is an array (`Array.isArray`). -/
def isArr : Val → Bool
  | Val.vArr _ => true
  | _ => false

/-- The merged current-date group of utils.ts lines 155-161 (and its verbatim
copies at lines 194-200 and 230-236):
`{...update.$currentDate, ...(!update.$set?.updatedAt && !update.$unset?.updatedAt && { updatedAt: true })}`. -/
def currentDateGroup (update : Val) : Obj :=
  objSpread (spreadOpt (getProp update "$currentDate"))
    (if !(jsTruthy (getProp2 update "$set" "updatedAt"))
        && !(jsTruthy (getProp2 update "$unset" "updatedAt"))
     then [("updatedAt", Val.vBool true)] else [])

/-- The merged set-on-insert group of utils.ts lines 201-207 (and its verbatim
copy at lines 237-243):
`{...update.$setOnInsert, ...(!update.$set?.createdAt && !update.$unset?.createdAt && { createdAt: new Date() })}`. -/
def setOnInsertGroup (update : Val) (now : Nat) : Obj :=
  objSpread (spreadOpt (getProp update "$setOnInsert"))
    (if !(jsTruthy (getProp2 update "$set" "createdAt"))
        && !(jsTruthy (getProp2 update "$unset" "createdAt"))
     then [("createdAt", Val.vDate now)] else [])

/-- Conditionally attaching a computed operator group to an update document:
`...(Object.keys(g).length > 0 && { name: g })`. -/
def attachGroup (o : Obj) (gname : String) (g : Obj) : Obj :=
  objSpread o (if g.length > 0 then [(gname, Val.vDoc g)] else [])

/-- utils.ts lines 152-168: `timestampUpdateFilter`. Returns
`{...update, ...(Object.keys($currentDate).length > 0 && { $currentDate })}`.
Note that this function performs no `Array.isArray` check. -/
def timestampUpdateFilter (update : Val) : Val :=
  Val.vDoc (attachGroup (spreadContrib update) "$currentDate" (currentDateGroup update))

/-- The new update document built in the updateOne and updateMany branches of
`timestampBulkWriteOperation` (utils.ts lines 213-217 and 249-253):
`{...update, ...(len > 0 && { $currentDate }), ...(len > 0 && { $setOnInsert })}`. -/
def timestampedUpdate (update : Val) (now : Nat) : Obj :=
  attachGroup
    (attachGroup (spreadContrib update) "$currentDate" (currentDateGroup update))
    "$setOnInsert" (setOnInsertGroup update now)

/-- A bulk-write operation descriptor: the six-way tagged variant of
`BulkWriteOperation` in utils.ts. For `insertOne` the payload carries the
`document` field; for the other variants the payload is the model object
(`filter`, `update` or `replacement`, and any options). -/
inductive BulkOp where
  | insertOne : Obj → BulkOp
  | replaceOne : Obj → BulkOp
  | updateOne : Obj → BulkOp
  | updateMany : Obj → BulkOp
  | deleteOne : Obj → BulkOp
  | deleteMany : Obj → BulkOp

/-- The payload object of a bulk operation (used to state properties of the
results of normalization). -/
def bulkPayload : BulkOp → Obj
  | BulkOp.insertOne p => p
  | BulkOp.replaceOne p => p
  | BulkOp.updateOne p => p
  | BulkOp.updateMany p => p
  | BulkOp.deleteOne p => p
  | BulkOp.deleteMany p => p

/-- The value of a named field of the payload of a bulk operation. -/
def opField (op : BulkOp) (f : String) : Val :=
  (lookupKey (bulkPayload op) f).getD Val.vNull

/-- utils.ts lines 171-272: `timestampBulkWriteOperation`, with the clock
reading `now` passed explicitly (both `new Date()` calls of a branch happen
at normalization time and are modelled by the same reading). The `updateOne`
and `updateMany` branches read `operation.*.update` (the driver types require
this field to be present; a missing field is modelled as `null`), skip
aggregation-pipeline (array) updates unchanged, and otherwise rebuild the
descriptor as `{...operation.*, update: <timestamped update>}`. -/
def timestampBulkWriteOperation (now : Nat) : BulkOp → BulkOp
  | BulkOp.insertOne payload =>
      BulkOp.insertOne
        [("document", Val.vDoc (objSpread
          [("createdAt", Val.vDate now), ("updatedAt", Val.vDate now)]
          (spreadOpt (lookupKey payload "document"))))]
  | BulkOp.updateOne payload =>
      let update := (lookupKey payload "update").getD Val.vNull
      if isArr update then BulkOp.updateOne payload
      else BulkOp.updateOne
        (setKey payload "update" (Val.vDoc (timestampedUpdate update now)))
  | BulkOp.updateMany payload =>
      let update := (lookupKey payload "update").getD Val.vNull
      if isArr update then BulkOp.updateMany payload
      else BulkOp.updateMany
        (setKey payload "update" (Val.vDoc (timestampedUpdate update now)))
  | BulkOp.replaceOne payload =>
      BulkOp.replaceOne
        (setKey payload "replacement" (Val.vDoc (objSpread
          [("createdAt", Val.vDate now), ("updatedAt", Val.vDate now)]
          (spreadOpt (lookupKey payload "replacement")))))
  | BulkOp.deleteOne payload => BulkOp.deleteOne payload
  | BulkOp.deleteMany payload => BulkOp.deleteMany payload

/-- Whether a key of the set-on-insert group conflicts with the update, i.e.
the condition of utils.ts lines 280-285:
`key in (update.$set or {}) or key in (update.$push or {}) or key in (update.$inc or {}) or key in (update.$unset or {})`. -/
def conflictsWith (update : Val) (k : String) : Bool :=
  jsHasKey (getProp update "$set") k || jsHasKey (getProp update "$push") k
    || jsHasKey (getProp update "$inc") k || jsHasKey (getProp update "$unset") k

/-- utils.ts lines 275-290: `cleanSetOnInsert` deletes from the set-on-insert
group every key that also appears in `$set`, `$push`, `$inc` or `$unset` of
the update. -/
def cleanSetOnInsert (setOnInsert : Obj) (update : Val) : Obj :=
  setOnInsert.filter fun kv => !(conflictsWith update kv.1)

/-- Last-match lookup: the binding a sequence of spreads leaves for a key. -/
def lookupLast (o : Obj) (k : String) : Option Val :=
  lookupKey o.reverse k

theorem lookupKey_setKey_self (o : Obj) (k : String) (v : Val) :
    lookupKey (setKey o k v) k = some v := by
  induction o with
  | nil => simp [setKey, lookupKey]
  | cons e rest ih =>
      by_cases h : e.1 = k
      · simp [setKey, h, lookupKey]
      · simp [setKey, h, lookupKey, ih]

theorem lookupKey_setKey_ne (o : Obj) {k q : String} (v : Val) (h : q ≠ k) :
    lookupKey (setKey o k v) q = lookupKey o q := by
  induction o with
  | nil => simp [setKey, lookupKey, Ne.symm h]
  | cons e rest ih =>
      by_cases he : e.1 = k
      · simp [setKey, he, lookupKey, Ne.symm h]
      · simp [setKey, he, lookupKey, ih]

theorem setKey_setKey_same (o : Obj) (k : String) (v w : Val) :
    setKey (setKey o k v) k w = setKey o k w := by
  induction o with
  | nil => simp [setKey]
  | cons e rest ih =>
      by_cases h : e.1 = k
      · simp [setKey, h]
      · simp [setKey, h, ih]

theorem setKey_length_pos (o : Obj) (k : String) (v : Val) :
    0 < (setKey o k v).length := by
  induction o with
  | nil => simp [setKey]
  | cons e rest ih =>
      by_cases h : e.1 = k
      · simp [setKey, h]
      · simp [setKey, h]

theorem objSpread_nil (o : Obj) : objSpread o [] = o := rfl

theorem objSpread_single (o : Obj) (k : String) (v : Val) :
    objSpread o [(k, v)] = setKey o k v := rfl

theorem attachGroup_pos (o : Obj) (gname : String) {g : Obj} (h : 0 < g.length) :
    attachGroup o gname g = setKey o gname (Val.vDoc g) := by
  simp [attachGroup, h, objSpread_single]

theorem attachGroup_zero (o : Obj) (gname : String) {g : Obj} (h : g = []) :
    attachGroup o gname g = o := by
  simp [attachGroup, h, objSpread_nil]

theorem lookupKey_attachGroup_ne (o : Obj) {gname q : String} (g : Obj) (h : q ≠ gname) :
    lookupKey (attachGroup o gname g) q = lookupKey o q := by
  rcases g with _ | ⟨e, rest⟩
  · rw [attachGroup_zero o gname rfl]
  · rw [attachGroup_pos o gname (by simp)]
    exact lookupKey_setKey_ne o _ h

theorem lookupKey_attachGroup_self (o : Obj) (gname : String) (g : Obj) :
    lookupKey (attachGroup o gname g) gname =
      if 0 < g.length then some (Val.vDoc g) else lookupKey o gname := by
  rcases g with _ | ⟨e, rest⟩
  · rw [attachGroup_zero o gname rfl]; simp
  · rw [attachGroup_pos o gname (by simp)]; simp [lookupKey_setKey_self]

theorem lookupKey_append (a b : Obj) (k : String) :
    lookupKey (a ++ b) k =
      match lookupKey a k with
      | some v => some v
      | none => lookupKey b k := by
  induction a with
  | nil => simp [lookupKey]
  | cons e rest ih =>
      by_cases h : e.1 = k
      · simp [lookupKey, h]
      · simp [lookupKey, h, ih]

theorem lookupKey_eq_none_iff (o : Obj) (k : String) :
    lookupKey o k = none ↔ k ∉ o.map Prod.fst := by
  induction o with
  | nil => simp [lookupKey]
  | cons e rest ih =>
      by_cases h : e.1 = k
      · simp [lookupKey, h]
      · simp [lookupKey, h, ih, Ne.symm h]

theorem lookupLast_cons (e : String × Val) (rest : Obj) (k : String) :
    lookupLast (e :: rest) k =
      match lookupLast rest k with
      | some v => some v
      | none => if e.1 = k then some e.2 else none := by
  show lookupKey ((e :: rest).reverse) k = _
  rw [List.reverse_cons, lookupKey_append]
  rcases h : lookupKey rest.reverse k with _ | v
  · have h2 : lookupLast rest k = none := h
    simp [h2, lookupKey]
  · have h2 : lookupLast rest k = some v := h
    simp [h2]

theorem lookupKey_objSpread (base ext : Obj) (k : String) :
    lookupKey (objSpread base ext) k =
      match lookupLast ext k with
      | some v => some v
      | none => lookupKey base k := by
  induction ext generalizing base with
  | nil => simp [objSpread_nil, lookupLast, lookupKey]
  | cons e rest ih =>
      show lookupKey (objSpread (setKey base e.1 e.2) rest) k = _
      rw [ih, lookupLast_cons]
      rcases h : lookupLast rest k with _ | v
      · simp only []
        by_cases hk : e.1 = k
        · simp [hk, lookupKey_setKey_self]
        · simp [hk, lookupKey_setKey_ne base e.2 (fun hh => hk hh.symm)]
      · simp

theorem lookupLast_eq_lookupKey {o : Obj} (h : (o.map Prod.fst).Nodup) (k : String) :
    lookupLast o k = lookupKey o k := by
  induction o with
  | nil => rfl
  | cons e rest ih =>
      rw [lookupLast_cons]
      simp only [List.map_cons, List.nodup_cons] at h
      by_cases hk : e.1 = k
      · have hnone : lookupKey rest k = none :=
          (lookupKey_eq_none_iff rest k).mpr (hk ▸ h.1)
        rw [← ih h.2] at hnone
        simp [hnone, lookupKey, hk]
      · rw [ih h.2]
        rcases hr : lookupKey rest k with _ | v
        · simp [lookupKey, hk, hr]
        · simp [lookupKey, hk, hr]

/-- Modelled from the spec: the record shapes that `ProjectionType`
(utils.ts lines 78-83) operates on. The type-level computation itself
(`DeepPick`, `WithId`) is not under src, so the shape walker below follows
the spec (sections 4.4 and 9): a shape is a tree of named fields, scalar or
nested object. -/
inductive FieldTy where
  | leaf : FieldTy
  | node : List (String × FieldTy) → FieldTy

/-- A record shape: the named top-level fields of a document. -/
abbrev Fields := List (String × FieldTy)

/-- Modelled from the spec: a projection specification is a mapping from
dotted field paths (here, lists of path segments) to inclusion flags, where
a non-zero flag includes the path. -/
def includedPaths (p : List (List String × Int)) : List (List String) :=
  p.filterMap fun kv => if kv.2 = 0 then none else some kv.1

/-- The requested sub-paths that enter the field named `k`. -/
def subPaths (k : String) (paths : List (List String)) : List (List String) :=
  paths.filterMap fun p =>
    match p with
    | [] => none
    | h :: t => if h = k then some t else none

/-- Modelled from the spec: the recursive shape walk of section 4.4 — keep
exactly the top-level fields that are roots of at least one included path;
a path ending at a field keeps the whole field, and object fields are
narrowed recursively along the remaining sub-paths. -/
def projectFields (shape : Fields) (paths : List (List String)) : Fields :=
  match shape with
  | [] => []
  | (k, ty) :: rest =>
      let sub := subPaths k paths
      if sub.isEmpty then projectFields rest paths
      else if sub.contains [] then (k, ty) :: projectFields rest paths
      else
        (match ty with
         | FieldTy.leaf => (k, FieldTy.leaf)
         | FieldTy.node fs => (k, FieldTy.node (projectFields fs sub))) :: projectFields rest paths

/-- Whether a shape declares a field of the given name. -/
def hasField : Fields → String → Bool
  | [], _ => false
  | (k, _) :: rest, q => k == q || hasField rest q

/-- Modelled from the spec: the identifier field is always re-included in a
derived read shape (`WithId`). -/
def ensureId (shape : Fields) : Fields :=
  if hasField shape "_id" then shape else ("_id", FieldTy.leaf) :: shape

/-- Modelled from the spec: `resolveProjectedShape(shape, projection?)` —
no projection yields the full shape, a projection yields the shape reachable
by the included paths; the identifier field is retained in either case. -/
def resolveProjectedShape (shape : Fields) (proj : Option (List (List String × Int))) : Fields :=
  match proj with
  | none => ensureId shape
  | some p => ensureId (projectFields shape (includedPaths p))

theorem hasField_ensureId_id (shape : Fields) : hasField (ensureId shape) "_id" = true := by
  by_cases h : hasField shape "_id"
  · simp [ensureId, h]
  · simp [ensureId, h, hasField]

theorem lookupKey_cleanSetOnInsert (s : Obj) (u : Val) (k : String) :
    lookupKey (cleanSetOnInsert s u) k =
      if conflictsWith u k = true then none else lookupKey s k := by
  induction s with
  | nil => simp [cleanSetOnInsert, lookupKey]
  | cons e rest ih =>
      by_cases hk : e.1 = k
      · by_cases hc : conflictsWith u k
        · have hc1 : conflictsWith u e.1 = true := hk ▸ hc
          have hdrop : cleanSetOnInsert (e :: rest) u = cleanSetOnInsert rest u := by
            simp [cleanSetOnInsert, List.filter_cons, hc1]
          rw [hdrop, ih]
          simp [hc]
        · have hc1 : ¬(conflictsWith u e.1 = true) := fun hh => hc (hk ▸ hh)
          have hkeep : cleanSetOnInsert (e :: rest) u = e :: cleanSetOnInsert rest u := by
            simp [cleanSetOnInsert, List.filter_cons, hc1]
          rw [hkeep, lookupKey, if_pos hk]
          simp [hc, lookupKey, hk]
      · by_cases hc : conflictsWith u e.1
        · have hdrop : cleanSetOnInsert (e :: rest) u = cleanSetOnInsert rest u := by
            simp [cleanSetOnInsert, List.filter_cons, hc]
          rw [hdrop, ih, lookupKey, if_neg hk]
        · have hkeep : cleanSetOnInsert (e :: rest) u = e :: cleanSetOnInsert rest u := by
            simp [cleanSetOnInsert, List.filter_cons, hc]
          rw [hkeep, lookupKey, if_neg hk, ih, lookupKey, if_neg hk]

theorem getProp_vDoc (d : Obj) (k : String) : getProp (Val.vDoc d) k = lookupKey d k := rfl

theorem jsHasKey_via_spread {v : Option Val} {k : String}
    (hp : k ∉ objectProtoKeys)
    (h : lookupKey (spreadOpt v) k = none) : jsHasKey v k = false := by
  rcases v with _ | w
  · simp [jsHasKey, hp]
  · cases w <;> simp_all [jsHasKey, spreadOpt, spreadContrib, hp]

/-- C1: Normalizing the bulk operation
`{ updateOne: { filter: { status: open }, update: { $set: { status: closed } } } }`
yields an updateOne operation with the same filter and with update
`{ $set: { status: closed }, $currentDate: { updatedAt: true }, $setOnInsert: { createdAt: now } }`
where `now` is the clock reading taken during normalization; and applying
`cleanSetOnInsert` to that set-on-insert group together with an update that
additionally contains `$set: { createdAt: X }` removes `createdAt` from the
set-on-insert group. -/
theorem updateOne_concrete_scenario (now : Nat) :
    timestampBulkWriteOperation now (BulkOp.updateOne
      [("filter", Val.vDoc [("status", Val.vStr "open")]),
       ("update", Val.vDoc [("$set", Val.vDoc [("status", Val.vStr "closed")])])])
    = BulkOp.updateOne
      [("filter", Val.vDoc [("status", Val.vStr "open")]),
       ("update", Val.vDoc
         [("$set", Val.vDoc [("status", Val.vStr "closed")]),
          ("$currentDate", Val.vDoc [("updatedAt", Val.vBool true)]),
          ("$setOnInsert", Val.vDoc [("createdAt", Val.vDate now)])])]
    ∧ cleanSetOnInsert [("createdAt", Val.vDate now)]
        (Val.vDoc
          [("$set", Val.vDoc [("status", Val.vStr "closed"), ("createdAt", Val.vStr "X")]),
           ("$currentDate", Val.vDoc [("updatedAt", Val.vBool true)]),
           ("$setOnInsert", Val.vDoc [("createdAt", Val.vDate now)])]) = [] :=
  ⟨rfl, rfl⟩

/-- C2 counterexample: `timestampUpdateFilter` does not return a pipeline
(array) update value-identical to the input — the empty pipeline comes back
as an operator document carrying a `$currentDate` group, because the function
performs no array check. -/
theorem timestampUpdateFilter_pipeline_not_passthrough :
    timestampUpdateFilter (Val.vArr [])
      = Val.vDoc [("$currentDate", Val.vDoc [("updatedAt", Val.vBool true)])]
    ∧ timestampUpdateFilter (Val.vArr []) ≠ Val.vArr [] :=
  ⟨rfl, fun h => Val.noConfusion h⟩

/-- C2 (amended): for every update given as a pipeline (an array of stages),
`timestampBulkWriteOperation` returns the updateOne and updateMany operations
value-identical to the input; `timestampUpdateFilter` however has no array
check and does not pass pipelines through (see the counterexample). -/
theorem bulk_pipeline_passthrough (now : Nat) (stages : List Val) (payload : Obj)
    (h : lookupKey payload "update" = some (Val.vArr stages)) :
    timestampBulkWriteOperation now (BulkOp.updateOne payload) = BulkOp.updateOne payload
    ∧ timestampBulkWriteOperation now (BulkOp.updateMany payload)
        = BulkOp.updateMany payload := by
  constructor <;> simp [timestampBulkWriteOperation, h, isArr]

/-- Witness for the amended C2 at the empty pipeline. -/
theorem bulk_pipeline_passthrough_witness :
    timestampBulkWriteOperation 0 (BulkOp.updateOne [("update", Val.vArr [])])
      = BulkOp.updateOne [("update", Val.vArr [])]
    ∧ timestampBulkWriteOperation 0 (BulkOp.updateMany [("update", Val.vArr [])])
      = BulkOp.updateMany [("update", Val.vArr [])] :=
  bulk_pipeline_passthrough 0 [] [("update", Val.vArr [])] rfl

/-- C4: for every set-on-insert group and every update, the cleaned
set-on-insert group shares no key with any of the `$set`, `$push`, `$inc`
or `$unset` groups of the update. -/
theorem cleanSetOnInsert_no_conflict (s : Obj) (u : Val) :
    ((cleanSetOnInsert s u).all fun kv =>
      !(jsHasKey (getProp u "$set") kv.1) && !(jsHasKey (getProp u "$push") kv.1)
        && !(jsHasKey (getProp u "$inc") kv.1)
        && !(jsHasKey (getProp u "$unset") kv.1)) = true := by
  simp only [List.all_eq_true]
  intro kv hm
  simp only [cleanSetOnInsert] at hm
  simpa [conflictsWith] using List.of_mem_filter hm

/-- C10 counterexample: the empty update has no `$set`, `$push`, `$inc` or
`$unset` group at all, so a set-on-insert key named `toString` appears in
none of them — yet `cleanSetOnInsert` deletes it, because the JavaScript
`in` operator finds `toString` on the `{}` fallback through the prototype
chain. The claimed removal of nothing beyond the conflicting group keys is
therefore false of the program. -/
theorem cleanSetOnInsert_proto_counterexample :
    getProp (Val.vDoc []) "$set" = none
    ∧ getProp (Val.vDoc []) "$push" = none
    ∧ getProp (Val.vDoc []) "$inc" = none
    ∧ getProp (Val.vDoc []) "$unset" = none
    ∧ cleanSetOnInsert [("toString", Val.vInt 1)] (Val.vDoc []) = [] :=
  ⟨rfl, rfl, rfl, rfl, rfl⟩

/-- C10 (amended): a key is present in the result of `cleanSetOnInsert`
exactly when it was present in the set-on-insert group and the `in` operator
finds it in none of the `$set`, `$push`, `$inc`, `$unset` groups of the
update — that is, it is an own key of no group and is not one of the
inherited Object.prototype member names, which test as present on every
ordinary object including the `{}` fallback used for an absent group; each
retained key keeps its original value. (The original claim read key
appearance as own keys only and is refuted by the `toString`
counterexample.) -/
theorem cleanSetOnInsert_exact (s : Obj) (u : Val) (k : String) :
    lookupKey (cleanSetOnInsert s u) k =
      if (jsHasKey (getProp u "$set") k || jsHasKey (getProp u "$push") k
          || jsHasKey (getProp u "$inc") k || jsHasKey (getProp u "$unset") k) = true
      then none else lookupKey s k :=
  lookupKey_cleanSetOnInsert s u k

/-- C8: resolving with no projection yields the full shape with the
identifier field present; resolving the projection `{ a: 1 }` against a shape
with fields `a`, `b`, `c` yields a shape with exactly the fields `_id` and
`a`; the identifier field is retained whether or not it is requested. -/
theorem projection_resolution :
    (∀ shape k, hasField (resolveProjectedShape shape none) k
        = (hasField shape k || (k == "_id")))
    ∧ resolveProjectedShape [("a", FieldTy.leaf), ("b", FieldTy.leaf), ("c", FieldTy.leaf)]
        (some [(["a"], 1)]) = [("_id", FieldTy.leaf), ("a", FieldTy.leaf)]
    ∧ (∀ shape proj, hasField (resolveProjectedShape shape proj) "_id" = true) := by
  refine ⟨?_, ?_, ?_⟩
  · intro shape k
    by_cases hid : hasField shape "_id"
    · simp only [resolveProjectedShape, ensureId, hid, if_pos]
      by_cases hk : k = "_id"
      · subst hk; simp [hid]
      · rw [show (k == "_id") = false from beq_eq_false_iff_ne.mpr hk, Bool.or_false]
    · simp only [resolveProjectedShape, ensureId, hid, if_neg, Bool.false_eq_true,
        not_false_eq_true, hasField]
      by_cases hk : k = "_id"
      · subst hk; simp [hid]
      · rw [show (k == "_id") = false from beq_eq_false_iff_ne.mpr hk,
          show ("_id" == k) = false from beq_eq_false_iff_ne.mpr (Ne.symm hk),
          Bool.or_false, Bool.false_or]
  · simp [resolveProjectedShape, includedPaths, projectFields, subPaths, ensureId, hasField]
  · intro shape proj
    cases proj <;> simp [resolveProjectedShape, hasField_ensureId_id]

theorem lookupKey_stamped {D : Obj} (hD : (D.map Prod.fst).Nodup) (now : Nat) {k : String}
    (hk : lookupKey [("createdAt", Val.vDate now), ("updatedAt", Val.vDate now)] k
      = some (Val.vDate now)) :
    lookupKey (objSpread [("createdAt", Val.vDate now), ("updatedAt", Val.vDate now)] D) k
      = some ((lookupKey D k).getD (Val.vDate now)) := by
  rw [lookupKey_objSpread, lookupLast_eq_lookupKey hD]
  rcases h : lookupKey D k with _ | v
  · simpa using hk
  · simp

/-- C5: a normalized insertOne (respectively replaceOne) operation carries a
document (respectively replacement) that contains both `createdAt` and
`updatedAt`; a caller-supplied value of either field is preserved unchanged,
and a field the caller did not supply equals the clock reading taken during
normalization. The hypotheses state that the caller documents carry no
duplicate key, which every JavaScript object satisfies. -/
theorem insert_replace_timestamps (now : Nat) (pI pR : Obj)
    (hI : ((spreadOpt (lookupKey pI "document")).map Prod.fst).Nodup)
    (hR : ((spreadOpt (lookupKey pR "replacement")).map Prod.fst).Nodup) :
    (getProp (opField (timestampBulkWriteOperation now (BulkOp.insertOne pI)) "document")
        "createdAt"
      = some ((lookupKey (spreadOpt (lookupKey pI "document")) "createdAt").getD
          (Val.vDate now)))
    ∧ (getProp (opField (timestampBulkWriteOperation now (BulkOp.insertOne pI)) "document")
        "updatedAt"
      = some ((lookupKey (spreadOpt (lookupKey pI "document")) "updatedAt").getD
          (Val.vDate now)))
    ∧ (getProp (opField (timestampBulkWriteOperation now (BulkOp.replaceOne pR)) "replacement")
        "createdAt"
      = some ((lookupKey (spreadOpt (lookupKey pR "replacement")) "createdAt").getD
          (Val.vDate now)))
    ∧ (getProp (opField (timestampBulkWriteOperation now (BulkOp.replaceOne pR)) "replacement")
        "updatedAt"
      = some ((lookupKey (spreadOpt (lookupKey pR "replacement")) "updatedAt").getD
          (Val.vDate now))) := by
  have hins : opField (timestampBulkWriteOperation now (BulkOp.insertOne pI)) "document"
      = Val.vDoc (objSpread [("createdAt", Val.vDate now), ("updatedAt", Val.vDate now)]
          (spreadOpt (lookupKey pI "document"))) := by
    simp [timestampBulkWriteOperation, opField, bulkPayload, lookupKey]
  have hrep : opField (timestampBulkWriteOperation now (BulkOp.replaceOne pR)) "replacement"
      = Val.vDoc (objSpread [("createdAt", Val.vDate now), ("updatedAt", Val.vDate now)]
          (spreadOpt (lookupKey pR "replacement"))) := by
    simp [timestampBulkWriteOperation, opField, bulkPayload, lookupKey_setKey_self]
  refine ⟨?_, ?_, ?_, ?_⟩
  · rw [hins, getProp_vDoc]; exact lookupKey_stamped hI now rfl
  · rw [hins, getProp_vDoc]; exact lookupKey_stamped hI now rfl
  · rw [hrep, getProp_vDoc]; exact lookupKey_stamped hR now rfl
  · rw [hrep, getProp_vDoc]; exact lookupKey_stamped hR now rfl

/-- Witness for C5: an insert whose caller document already carries
`createdAt` keeps it, and an empty replacement receives both stamps. -/
theorem insert_replace_timestamps_witness :
    (getProp (opField (timestampBulkWriteOperation 3
        (BulkOp.insertOne [("document", Val.vDoc [("createdAt", Val.vInt 7)])])) "document")
        "createdAt"
      = some ((lookupKey (spreadOpt (lookupKey
          [("document", Val.vDoc [("createdAt", Val.vInt 7)])] "document")) "createdAt").getD
          (Val.vDate 3)))
    ∧ (getProp (opField (timestampBulkWriteOperation 3
        (BulkOp.insertOne [("document", Val.vDoc [("createdAt", Val.vInt 7)])])) "document")
        "updatedAt"
      = some ((lookupKey (spreadOpt (lookupKey
          [("document", Val.vDoc [("createdAt", Val.vInt 7)])] "document")) "updatedAt").getD
          (Val.vDate 3)))
    ∧ (getProp (opField (timestampBulkWriteOperation 3 (BulkOp.replaceOne [])) "replacement")
        "createdAt"
      = some ((lookupKey (spreadOpt (lookupKey ([] : Obj) "replacement")) "createdAt").getD
          (Val.vDate 3)))
    ∧ (getProp (opField (timestampBulkWriteOperation 3 (BulkOp.replaceOne [])) "replacement")
        "updatedAt"
      = some ((lookupKey (spreadOpt (lookupKey ([] : Obj) "replacement")) "updatedAt").getD
          (Val.vDate 3))) :=
  insert_replace_timestamps 3 [("document", Val.vDoc [("createdAt", Val.vInt 7)])] []
    (by decide) (by decide)

theorem currentDateGroup_vDoc (d : Obj) :
    currentDateGroup (Val.vDoc d) =
      objSpread (spreadOpt (lookupKey d "$currentDate"))
        (if !(jsTruthy (getProp2 (Val.vDoc d) "$set" "updatedAt"))
            && !(jsTruthy (getProp2 (Val.vDoc d) "$unset" "updatedAt"))
         then [("updatedAt", Val.vBool true)] else []) := rfl

theorem setOnInsertGroup_vDoc (d : Obj) (now : Nat) :
    setOnInsertGroup (Val.vDoc d) now =
      objSpread (spreadOpt (lookupKey d "$setOnInsert"))
        (if !(jsTruthy (getProp2 (Val.vDoc d) "$set" "createdAt"))
            && !(jsTruthy (getProp2 (Val.vDoc d) "$unset" "createdAt"))
         then [("createdAt", Val.vDate now)] else []) := rfl

theorem cond_setKey_currentDate (d : Obj) (X : Val) :
    (!(jsTruthy (getProp2 (Val.vDoc (setKey d "$currentDate" X)) "$set" "updatedAt"))
      && !(jsTruthy (getProp2 (Val.vDoc (setKey d "$currentDate" X)) "$unset" "updatedAt")))
    = (!(jsTruthy (getProp2 (Val.vDoc d) "$set" "updatedAt"))
      && !(jsTruthy (getProp2 (Val.vDoc d) "$unset" "updatedAt"))) := by
  simp only [getProp2, getProp_vDoc,
    lookupKey_setKey_ne d X (show "$set" ≠ "$currentDate" by decide),
    lookupKey_setKey_ne d X (show "$unset" ≠ "$currentDate" by decide)]

/-- C9: `timestampUpdateFilter` is idempotent on operator-document updates:
applying it twice gives the same value as applying it once. -/
theorem timestampUpdateFilter_idempotent (d : Obj) :
    timestampUpdateFilter (timestampUpdateFilter (Val.vDoc d))
      = timestampUpdateFilter (Val.vDoc d) := by
  have expand : ∀ e : Obj, timestampUpdateFilter (Val.vDoc e)
      = Val.vDoc (attachGroup e "$currentDate" (currentDateGroup (Val.vDoc e))) :=
    fun e => rfl
  by_cases hb : (!(jsTruthy (getProp2 (Val.vDoc d) "$set" "updatedAt"))
      && !(jsTruthy (getProp2 (Val.vDoc d) "$unset" "updatedAt"))) = true
  · have hcd : currentDateGroup (Val.vDoc d)
        = setKey (spreadOpt (lookupKey d "$currentDate")) "updatedAt" (Val.vBool true) := by
      rw [currentDateGroup_vDoc, if_pos hb, objSpread_single]
    have hpos : 0 < (currentDateGroup (Val.vDoc d)).length := by
      rw [hcd]; exact setKey_length_pos _ _ _
    rw [expand d, attachGroup_pos d _ hpos, expand _]
    have hcdF : currentDateGroup (Val.vDoc (setKey d "$currentDate"
          (Val.vDoc (currentDateGroup (Val.vDoc d)))))
        = currentDateGroup (Val.vDoc d) := by
      rw [currentDateGroup_vDoc, lookupKey_setKey_self,
        if_pos (by rw [cond_setKey_currentDate]; exact hb)]
      show objSpread (currentDateGroup (Val.vDoc d)) _ = _
      rw [objSpread_single, hcd, setKey_setKey_same, ← hcd]
    rw [hcdF, attachGroup_pos _ _ hpos, setKey_setKey_same]
  · have hbf : (!(jsTruthy (getProp2 (Val.vDoc d) "$set" "updatedAt"))
        && !(jsTruthy (getProp2 (Val.vDoc d) "$unset" "updatedAt"))) = false := by
      simpa using hb
    have hcd : currentDateGroup (Val.vDoc d) = spreadOpt (lookupKey d "$currentDate") := by
      rw [currentDateGroup_vDoc, if_neg (by simp [hbf]), objSpread_nil]
    rcases hs : spreadOpt (lookupKey d "$currentDate") with _ | ⟨e, srest⟩
    · have hzero : currentDateGroup (Val.vDoc d) = [] := by rw [hcd, hs]
      have hfix : timestampUpdateFilter (Val.vDoc d) = Val.vDoc d := by
        rw [expand d, attachGroup_zero d _ hzero]
      rw [hfix, hfix]
    · have hpos : 0 < (currentDateGroup (Val.vDoc d)).length := by
        rw [hcd, hs]; simp
      rw [expand d, attachGroup_pos d _ hpos, expand _]
      have hcdF : currentDateGroup (Val.vDoc (setKey d "$currentDate"
            (Val.vDoc (currentDateGroup (Val.vDoc d)))))
          = currentDateGroup (Val.vDoc d) := by
        rw [currentDateGroup_vDoc, lookupKey_setKey_self,
          if_neg (by rw [cond_setKey_currentDate]; simp [hbf]), objSpread_nil]
        rfl
      rw [hcdF, attachGroup_pos _ _ hpos, setKey_setKey_same]

/-- C3 counterexample: the update `{ $unset: { updatedAt: "" } }` mentions the
key `updatedAt` in its `$unset` group (with the customary empty-string value),
yet the `$currentDate` group of the normalized result does contain
`updatedAt` — the code tests truthiness of the value, not presence of the
key, and the empty string is falsy. -/
theorem updatedAt_falsy_mention_counterexample :
    jsHasKey (getProp (Val.vDoc [("$unset", Val.vDoc [("updatedAt", Val.vStr "")])]) "$unset")
      "updatedAt" = true
    ∧ jsHasKey (getProp (timestampUpdateFilter
        (Val.vDoc [("$unset", Val.vDoc [("updatedAt", Val.vStr "")])])) "$currentDate")
      "updatedAt" = true :=
  ⟨rfl, rfl⟩

theorem lookupKey_attach_cd_clean (d : Obj)
    (hm : (jsTruthy (getProp2 (Val.vDoc d) "$set" "updatedAt")
        || jsTruthy (getProp2 (Val.vDoc d) "$unset" "updatedAt")) = true)
    (hcd : lookupKey (spreadOpt (lookupKey d "$currentDate")) "updatedAt" = none) :
    jsHasKey (lookupKey (attachGroup d "$currentDate" (currentDateGroup (Val.vDoc d)))
      "$currentDate") "updatedAt" = false := by
  have hbf : (!(jsTruthy (getProp2 (Val.vDoc d) "$set" "updatedAt"))
      && !(jsTruthy (getProp2 (Val.vDoc d) "$unset" "updatedAt"))) = false := by
    rw [← Bool.not_or, hm]; rfl
  have hg : currentDateGroup (Val.vDoc d) = spreadOpt (lookupKey d "$currentDate") := by
    rw [currentDateGroup_vDoc, if_neg (by simp [hbf]), objSpread_nil]
  rw [lookupKey_attachGroup_self, hg]
  by_cases hlen : 0 < (spreadOpt (lookupKey d "$currentDate")).length
  · rw [if_pos hlen]
    have hp : "updatedAt" ∉ objectProtoKeys := by decide
    simp [jsHasKey, hcd, hp]
  · rw [if_neg hlen]
    exact jsHasKey_via_spread (by decide) hcd

/-- C3 (amended): for every non-pipeline update whose `$set` or `$unset`
group carries `updatedAt` with a truthy value, and whose own `$currentDate`
group does not already carry the key `updatedAt`, the `$currentDate` group of
the result of `timestampUpdateFilter` — and of the update produced by
`timestampBulkWriteOperation` for updateOne and updateMany operations — does
not contain `updatedAt`. (The original claim admitted any value, but the code
tests truthiness, and a caller-supplied `$currentDate.updatedAt` is kept.) -/
theorem updatedAt_truthy_precedence (now : Nat) (u : Val) (payload : Obj)
    (hm : (jsTruthy (getProp2 u "$set" "updatedAt")
        || jsTruthy (getProp2 u "$unset" "updatedAt")) = true)
    (hcd : lookupKey (spreadOpt (getProp u "$currentDate")) "updatedAt" = none)
    (hpl : lookupKey payload "update" = some u) :
    jsHasKey (getProp (timestampUpdateFilter u) "$currentDate") "updatedAt" = false
    ∧ jsHasKey (getProp (opField (timestampBulkWriteOperation now (BulkOp.updateOne payload))
        "update") "$currentDate") "updatedAt" = false
    ∧ jsHasKey (getProp (opField (timestampBulkWriteOperation now (BulkOp.updateMany payload))
        "update") "$currentDate") "updatedAt" = false := by
  obtain ⟨d, rfl⟩ : ∃ d, u = Val.vDoc d := by
    cases u <;> first
      | exact ⟨_, rfl⟩
      | simp [getProp2, getProp, jsTruthy] at hm
  have hcore := lookupKey_attach_cd_clean d hm hcd
  refine ⟨hcore, ?_, ?_⟩
  · have hres : opField (timestampBulkWriteOperation now (BulkOp.updateOne payload)) "update"
        = Val.vDoc (timestampedUpdate (Val.vDoc d) now) := by
      simp [timestampBulkWriteOperation, hpl, isArr, opField, bulkPayload, lookupKey_setKey_self]
    rw [hres, getProp_vDoc]
    unfold timestampedUpdate
    rw [lookupKey_attachGroup_ne _ _ (show "$currentDate" ≠ "$setOnInsert" by decide)]
    exact hcore
  · have hres : opField (timestampBulkWriteOperation now (BulkOp.updateMany payload)) "update"
        = Val.vDoc (timestampedUpdate (Val.vDoc d) now) := by
      simp [timestampBulkWriteOperation, hpl, isArr, opField, bulkPayload, lookupKey_setKey_self]
    rw [hres, getProp_vDoc]
    unfold timestampedUpdate
    rw [lookupKey_attachGroup_ne _ _ (show "$currentDate" ≠ "$setOnInsert" by decide)]
    exact hcore

/-- Witness for the amended C3 at the update `{ $set: { updatedAt: true } }`. -/
theorem updatedAt_truthy_precedence_witness :
    jsHasKey (getProp (timestampUpdateFilter
        (Val.vDoc [("$set", Val.vDoc [("updatedAt", Val.vBool true)])])) "$currentDate")
      "updatedAt" = false
    ∧ jsHasKey (getProp (opField (timestampBulkWriteOperation 0 (BulkOp.updateOne
        [("update", Val.vDoc [("$set", Val.vDoc [("updatedAt", Val.vBool true)])])]))
        "update") "$currentDate") "updatedAt" = false
    ∧ jsHasKey (getProp (opField (timestampBulkWriteOperation 0 (BulkOp.updateMany
        [("update", Val.vDoc [("$set", Val.vDoc [("updatedAt", Val.vBool true)])])]))
        "update") "$currentDate") "updatedAt" = false :=
  updatedAt_truthy_precedence 0
    (Val.vDoc [("$set", Val.vDoc [("updatedAt", Val.vBool true)])])
    [("update", Val.vDoc [("$set", Val.vDoc [("updatedAt", Val.vBool true)])])]
    rfl rfl rfl

theorem opField_update_one (now : Nat) (payload : Obj) (d : Obj)
    (hpl : lookupKey payload "update" = some (Val.vDoc d)) :
    opField (timestampBulkWriteOperation now (BulkOp.updateOne payload)) "update"
      = Val.vDoc (timestampedUpdate (Val.vDoc d) now) := by
  simp [timestampBulkWriteOperation, hpl, isArr, opField, bulkPayload, lookupKey_setKey_self]

theorem opField_update_many (now : Nat) (payload : Obj) (d : Obj)
    (hpl : lookupKey payload "update" = some (Val.vDoc d)) :
    opField (timestampBulkWriteOperation now (BulkOp.updateMany payload)) "update"
      = Val.vDoc (timestampedUpdate (Val.vDoc d) now) := by
  simp [timestampBulkWriteOperation, hpl, isArr, opField, bulkPayload, lookupKey_setKey_self]

theorem lookupKey_timestampedUpdate_soi (d : Obj) (now : Nat) :
    lookupKey (timestampedUpdate (Val.vDoc d) now) "$setOnInsert" =
      if 0 < (setOnInsertGroup (Val.vDoc d) now).length
      then some (Val.vDoc (setOnInsertGroup (Val.vDoc d) now))
      else lookupKey d "$setOnInsert" := by
  unfold timestampedUpdate
  rw [lookupKey_attachGroup_self,
    lookupKey_attachGroup_ne _ _ (show "$setOnInsert" ≠ "$currentDate" by decide)]
  rfl

theorem lookupKey_timestampedUpdate_cd (d : Obj) (now : Nat) :
    lookupKey (timestampedUpdate (Val.vDoc d) now) "$currentDate" =
      if 0 < (currentDateGroup (Val.vDoc d)).length
      then some (Val.vDoc (currentDateGroup (Val.vDoc d)))
      else lookupKey d "$currentDate" := by
  unfold timestampedUpdate
  rw [lookupKey_attachGroup_ne _ _ (show "$currentDate" ≠ "$setOnInsert" by decide),
    lookupKey_attachGroup_self]
  rfl

theorem setOnInsertGroup_untargeted (d : Obj) (now : Nat)
    (ht : (jsTruthy (getProp2 (Val.vDoc d) "$set" "createdAt")
        || jsTruthy (getProp2 (Val.vDoc d) "$unset" "createdAt")) = false) :
    setOnInsertGroup (Val.vDoc d) now
      = setKey (spreadOpt (lookupKey d "$setOnInsert")) "createdAt" (Val.vDate now) := by
  have hbt : (!(jsTruthy (getProp2 (Val.vDoc d) "$set" "createdAt"))
      && !(jsTruthy (getProp2 (Val.vDoc d) "$unset" "createdAt"))) = true := by
    rw [← Bool.not_or, ht]; rfl
  rw [setOnInsertGroup_vDoc, if_pos hbt, objSpread_single]

theorem setOnInsertGroup_targeted (d : Obj) (now : Nat)
    (ht : (jsTruthy (getProp2 (Val.vDoc d) "$set" "createdAt")
        || jsTruthy (getProp2 (Val.vDoc d) "$unset" "createdAt")) = true) :
    setOnInsertGroup (Val.vDoc d) now = spreadOpt (lookupKey d "$setOnInsert") := by
  have hbf : (!(jsTruthy (getProp2 (Val.vDoc d) "$set" "createdAt"))
      && !(jsTruthy (getProp2 (Val.vDoc d) "$unset" "createdAt"))) = false := by
    rw [← Bool.not_or, ht]; rfl
  rw [setOnInsertGroup_vDoc, if_neg (by simp [hbf]), objSpread_nil]

/-- C6 counterexample: with `$set: { createdAt: 0 }` the caller's `$set`
targets `createdAt`, so the claim requires the set-on-insert group to stay
equal to the caller's (empty) group and hence to remain unattached; the code
tests truthiness, the number 0 is falsy, and the produced update does carry
`$setOnInsert: { createdAt: now }`. -/
theorem createdAt_falsy_target_counterexample :
    jsHasKey (getProp (Val.vDoc [("$set", Val.vDoc [("createdAt", Val.vInt 0)])]) "$set")
      "createdAt" = true
    ∧ getProp (opField (timestampBulkWriteOperation 0 (BulkOp.updateOne
        [("update", Val.vDoc [("$set", Val.vDoc [("createdAt", Val.vInt 0)])])])) "update")
        "$setOnInsert" = some (Val.vDoc [("createdAt", Val.vDate 0)]) :=
  ⟨rfl, rfl⟩

/-- C6 (amended): for every updateOne or updateMany operation whose update is
an operator document, the produced update has a `$setOnInsert` group equal to
the caller's group merged with `{ createdAt: now }` unless the caller's
`$set` or `$unset` group targets `createdAt` with a truthy value (keys other
than `createdAt` keep their caller value; with a truthy target the group is
exactly the caller's group); the `$setOnInsert` and `$currentDate` groups are
attached to the new update only when non-empty, the original value remaining
otherwise. (The original claim let any targeting value suppress the merge,
but the code tests truthiness.) -/
theorem bulk_update_setOnInsert (now : Nat) (d : Obj) (payload : Obj)
    (hpl : lookupKey payload "update" = some (Val.vDoc d)) :
    ((jsTruthy (getProp2 (Val.vDoc d) "$set" "createdAt")
        || jsTruthy (getProp2 (Val.vDoc d) "$unset" "createdAt")) = false →
      getProp2 (opField (timestampBulkWriteOperation now (BulkOp.updateOne payload)) "update")
          "$setOnInsert" "createdAt" = some (Val.vDate now)
      ∧ getProp2 (opField (timestampBulkWriteOperation now (BulkOp.updateMany payload)) "update")
          "$setOnInsert" "createdAt" = some (Val.vDate now))
    ∧ ((jsTruthy (getProp2 (Val.vDoc d) "$set" "createdAt")
        || jsTruthy (getProp2 (Val.vDoc d) "$unset" "createdAt")) = false →
      ∀ k, k ≠ "createdAt" →
        getProp2 (opField (timestampBulkWriteOperation now (BulkOp.updateOne payload)) "update")
            "$setOnInsert" k = lookupKey (spreadOpt (lookupKey d "$setOnInsert")) k
        ∧ getProp2 (opField (timestampBulkWriteOperation now (BulkOp.updateMany payload)) "update")
            "$setOnInsert" k = lookupKey (spreadOpt (lookupKey d "$setOnInsert")) k)
    ∧ ((jsTruthy (getProp2 (Val.vDoc d) "$set" "createdAt")
        || jsTruthy (getProp2 (Val.vDoc d) "$unset" "createdAt")) = true →
      getProp (opField (timestampBulkWriteOperation now (BulkOp.updateOne payload)) "update")
          "$setOnInsert"
        = (if 0 < (spreadOpt (lookupKey d "$setOnInsert")).length
           then some (Val.vDoc (spreadOpt (lookupKey d "$setOnInsert")))
           else lookupKey d "$setOnInsert")
      ∧ getProp (opField (timestampBulkWriteOperation now (BulkOp.updateMany payload)) "update")
          "$setOnInsert"
        = (if 0 < (spreadOpt (lookupKey d "$setOnInsert")).length
           then some (Val.vDoc (spreadOpt (lookupKey d "$setOnInsert")))
           else lookupKey d "$setOnInsert"))
    ∧ (getProp (opField (timestampBulkWriteOperation now (BulkOp.updateOne payload)) "update")
          "$currentDate"
        = (if 0 < (currentDateGroup (Val.vDoc d)).length
           then some (Val.vDoc (currentDateGroup (Val.vDoc d)))
           else lookupKey d "$currentDate")
      ∧ getProp (opField (timestampBulkWriteOperation now (BulkOp.updateMany payload)) "update")
          "$currentDate"
        = (if 0 < (currentDateGroup (Val.vDoc d)).length
           then some (Val.vDoc (currentDateGroup (Val.vDoc d)))
           else lookupKey d "$currentDate")) := by
  have h1 := opField_update_one now payload d hpl
  have h2 := opField_update_many now payload d hpl
  refine ⟨?_, ?_, ?_, ?_⟩
  · intro ht
    have hsoi := setOnInsertGroup_untargeted d now ht
    have hlook : lookupKey (timestampedUpdate (Val.vDoc d) now) "$setOnInsert"
        = some (Val.vDoc (setOnInsertGroup (Val.vDoc d) now)) := by
      rw [lookupKey_timestampedUpdate_soi,
        if_pos (by rw [hsoi]; exact setKey_length_pos _ _ _)]
    constructor
    · rw [h1]
      simp only [getProp2, getProp_vDoc, hlook]
      rw [hsoi, lookupKey_setKey_self]
    · rw [h2]
      simp only [getProp2, getProp_vDoc, hlook]
      rw [hsoi, lookupKey_setKey_self]
  · intro ht k hk
    have hsoi := setOnInsertGroup_untargeted d now ht
    have hlook : lookupKey (timestampedUpdate (Val.vDoc d) now) "$setOnInsert"
        = some (Val.vDoc (setOnInsertGroup (Val.vDoc d) now)) := by
      rw [lookupKey_timestampedUpdate_soi,
        if_pos (by rw [hsoi]; exact setKey_length_pos _ _ _)]
    constructor
    · rw [h1]
      simp only [getProp2, getProp_vDoc, hlook]
      rw [hsoi, lookupKey_setKey_ne _ _ hk]
    · rw [h2]
      simp only [getProp2, getProp_vDoc, hlook]
      rw [hsoi, lookupKey_setKey_ne _ _ hk]
  · intro ht
    have hsoi := setOnInsertGroup_targeted d now ht
    constructor
    · rw [h1, getProp_vDoc, lookupKey_timestampedUpdate_soi, hsoi]
    · rw [h2, getProp_vDoc, lookupKey_timestampedUpdate_soi, hsoi]
  · constructor
    · rw [h1, getProp_vDoc, lookupKey_timestampedUpdate_cd]
    · rw [h2, getProp_vDoc, lookupKey_timestampedUpdate_cd]

/-- Witness for the amended C6: an update with set-on-insert group
`{ a: 1 }` and no createdAt targeting gains `createdAt: now` and keeps `a`. -/
theorem bulk_update_setOnInsert_witness :
    getProp2 (opField (timestampBulkWriteOperation 2 (BulkOp.updateOne
        [("update", Val.vDoc [("$setOnInsert", Val.vDoc [("a", Val.vInt 1)])])])) "update")
        "$setOnInsert" "createdAt" = some (Val.vDate 2)
    ∧ getProp2 (opField (timestampBulkWriteOperation 2 (BulkOp.updateOne
        [("update", Val.vDoc [("$setOnInsert", Val.vDoc [("a", Val.vInt 1)])])])) "update")
        "$setOnInsert" "a"
      = lookupKey (spreadOpt (lookupKey [("$setOnInsert", Val.vDoc [("a", Val.vInt 1)])]
          "$setOnInsert")) "a" :=
  ⟨((bulk_update_setOnInsert 2 [("$setOnInsert", Val.vDoc [("a", Val.vInt 1)])]
      [("update", Val.vDoc [("$setOnInsert", Val.vDoc [("a", Val.vInt 1)])])] rfl).1 rfl).1,
   (((bulk_update_setOnInsert 2 [("$setOnInsert", Val.vDoc [("a", Val.vInt 1)])]
      [("update", Val.vDoc [("$setOnInsert", Val.vDoc [("a", Val.vInt 1)])])] rfl).2.1 rfl)
      "a" (by decide)).1⟩

/-- C7: for every updateOne or updateMany operation with an operator-document
update, normalization leaves every field of the operation descriptor other
than the update itself (the filter and any options) unchanged in value, and
within the produced update every operator group other than `$currentDate` and
`$setOnInsert` equals the caller's original group. -/
theorem bulk_update_frame (now : Nat) (d : Obj) (payload : Obj)
    (hpl : lookupKey payload "update" = some (Val.vDoc d)) :
    (∀ k, k ≠ "update" →
      lookupKey (bulkPayload (timestampBulkWriteOperation now (BulkOp.updateOne payload))) k
        = lookupKey payload k
      ∧ lookupKey (bulkPayload (timestampBulkWriteOperation now (BulkOp.updateMany payload))) k
        = lookupKey payload k)
    ∧ (∀ k, k ≠ "$currentDate" → k ≠ "$setOnInsert" →
      getProp (opField (timestampBulkWriteOperation now (BulkOp.updateOne payload)) "update") k
        = lookupKey d k
      ∧ getProp (opField (timestampBulkWriteOperation now (BulkOp.updateMany payload)) "update") k
        = lookupKey d k) := by
  have hb1 : bulkPayload (timestampBulkWriteOperation now (BulkOp.updateOne payload))
      = setKey payload "update" (Val.vDoc (timestampedUpdate (Val.vDoc d) now)) := by
    simp [timestampBulkWriteOperation, hpl, isArr, bulkPayload]
  have hb2 : bulkPayload (timestampBulkWriteOperation now (BulkOp.updateMany payload))
      = setKey payload "update" (Val.vDoc (timestampedUpdate (Val.vDoc d) now)) := by
    simp [timestampBulkWriteOperation, hpl, isArr, bulkPayload]
  constructor
  · intro k hk
    rw [hb1, hb2]
    exact ⟨lookupKey_setKey_ne payload _ hk, lookupKey_setKey_ne payload _ hk⟩
  · intro k hcd hsoi
    rw [opField_update_one now payload d hpl, opField_update_many now payload d hpl,
      getProp_vDoc]
    unfold timestampedUpdate
    rw [lookupKey_attachGroup_ne _ _ hsoi, lookupKey_attachGroup_ne _ _ hcd]
    exact ⟨rfl, rfl⟩

/-- Witness for C7: the filter field and the `$set` group survive
normalization of a concrete updateOne and updateMany operation. -/
theorem bulk_update_frame_witness :
    (lookupKey (bulkPayload (timestampBulkWriteOperation 1 (BulkOp.updateOne
        [("filter", Val.vDoc []),
         ("update", Val.vDoc [("$set", Val.vDoc [("a", Val.vInt 1)])])]))) "filter"
      = lookupKey [("filter", Val.vDoc []),
          ("update", Val.vDoc [("$set", Val.vDoc [("a", Val.vInt 1)])])] "filter"
     ∧ lookupKey (bulkPayload (timestampBulkWriteOperation 1 (BulkOp.updateMany
        [("filter", Val.vDoc []),
         ("update", Val.vDoc [("$set", Val.vDoc [("a", Val.vInt 1)])])]))) "filter"
      = lookupKey [("filter", Val.vDoc []),
          ("update", Val.vDoc [("$set", Val.vDoc [("a", Val.vInt 1)])])] "filter")
    ∧ (getProp (opField (timestampBulkWriteOperation 1 (BulkOp.updateOne
        [("filter", Val.vDoc []),
         ("update", Val.vDoc [("$set", Val.vDoc [("a", Val.vInt 1)])])])) "update") "$set"
      = lookupKey [("$set", Val.vDoc [("a", Val.vInt 1)])] "$set"
     ∧ getProp (opField (timestampBulkWriteOperation 1 (BulkOp.updateMany
        [("filter", Val.vDoc []),
         ("update", Val.vDoc [("$set", Val.vDoc [("a", Val.vInt 1)])])])) "update") "$set"
      = lookupKey [("$set", Val.vDoc [("a", Val.vInt 1)])] "$set") :=
  ⟨(bulk_update_frame 1 [("$set", Val.vDoc [("a", Val.vInt 1)])]
      [("filter", Val.vDoc []),
       ("update", Val.vDoc [("$set", Val.vDoc [("a", Val.vInt 1)])])] rfl).1
      "filter" (by decide),
   (bulk_update_frame 1 [("$set", Val.vDoc [("a", Val.vInt 1)])]
      [("filter", Val.vDoc []),
       ("update", Val.vDoc [("$set", Val.vDoc [("a", Val.vInt 1)])])] rfl).2
      "$set" (by decide) (by decide)⟩

end Papr
